import Mathlib

/-!
Verification of the data-file analyzer (`analizador_datos.py`).

The embedding models the analysis engine: the header-row detector
(`_es_encabezado_valido`, `_buscar_fila_encabezado`), the per-value type
detectors (`_detectar_tipo`, `_detectar_tipo_valor`, `_traducir_tipo_arrow`),
the per-column streaming state (`_procesar_fila_datos`) and the three
analyzers (`analizar_csv`, `analizar_excel` per sheet, `analizar_parquet`),
plus the per-file error boundary of `generar_reporte_datos`.

Python floats never leave a small set of exact decimal increments here, so
scores are represented exactly: a score is `t / (10 * d)` for an integer `t`
(tenths) and a positive divisor `d` (the count of scored cells).  All
comparisons the code performs are realized by integer cross-multiplication,
and `Puntaje.val` gives the rational denotation used in theorem statements.
-/

namespace Datamapping

/-- Constant `CHUNK_SIZE = 10000` from the source. -/
def CHUNK_SIZE : Nat := 10000

/-- Constant `MUESTRA_VALORES = 5` from the source. -/
def MUESTRA_VALORES : Nat := 5

/-- Constant `MAX_FILAS_BUSQUEDA_HEADER = 20` from the source. -/
def MAX_FILAS_BUSQUEDA_HEADER : Nat := 20

/-! ### Python-side primitives: characters, whitespace, number literals -/

/-- ASCII decimal digit, Python `c.isdigit()` on ASCII text. -/
def esDigito (c : Char) : Bool := '0' ≤ c && c ≤ '9'

/-- ASCII letter, the `[a-zA-Z]` class of the identifier regex. -/
def esAlfa (c : Char) : Bool := ('a' ≤ c && c ≤ 'z') || ('A' ≤ c && c ≤ 'Z')

/-- Whitespace stripped by Python `str.strip()` (ASCII fragment). -/
def esEspacio (c : Char) : Bool :=
  c = ' ' || c = '\t' || c = '\n' || c = '\r' || c.toNat = 11 || c.toNat = 12

/-- Python `s.strip()` on a character list. -/
def stripWs (cs : List Char) : List Char :=
  ((cs.dropWhile esEspacio).reverse.dropWhile esEspacio).reverse

/-- Python `s.replace(',', '.')` (single characters). -/
def comaAPunto (cs : List Char) : List Char :=
  cs.map (fun c => if c = ',' then '.' else c)

/-- Python `s.replace(',', '').replace('.', '')`. -/
def sinSeparadores (cs : List Char) : List Char :=
  cs.filter (fun c => !(c = ',' || c = '.'))

/-- Consume the tail of a Python digit-part: digits with single underscores
strictly between digits (`1_000` is accepted, `1__0` and `1_` are not). -/
def consumeDigitTail : List Char → List Char
  | [] => []
  | c :: rest =>
    if esDigito c then consumeDigitTail rest
    else if c = '_' then
      match rest with
      | d :: rest2 => if esDigito d then consumeDigitTail rest2 else c :: rest
      | [] => [c]
    else c :: rest

/-- Consume a Python digit-part (at least one digit); `none` when the input
does not start with a digit. -/
def consumeDigitPart : List Char → Option (List Char)
  | [] => Option.none
  | c :: rest => if esDigito c then Option.some (consumeDigitTail rest) else Option.none

/-- Strip one optional sign character. -/
def quitarSigno : List Char → List Char
  | [] => []
  | c :: rest => if c = '+' || c = '-' then rest else c :: rest

/-- Optional exponent suffix of a Python float literal, then end of input. -/
def finExponente : List Char → Bool
  | [] => true
  | c :: rest =>
    if c = 'e' then
      match consumeDigitPart (quitarSigno rest) with
      | Option.some [] => true
      | _ => false
    else false

/-- Mantissa (and optional exponent) of a Python float literal,
already lower-cased and sign-stripped. -/
def numeroFlotante (cs : List Char) : Bool :=
  match consumeDigitPart cs with
  | Option.some rest =>
    match rest with
    | '.' :: r2 =>
      (match consumeDigitPart r2 with
       | Option.some r3 => finExponente r3
       | Option.none => finExponente r2)
    | _ => finExponente rest
  | Option.none =>
    match cs with
    | '.' :: r2 =>
      (match consumeDigitPart r2 with
       | Option.some r3 => finExponente r3
       | Option.none => false)
    | _ => false

/-- Whether Python `float(s)` succeeds (ASCII model): optional whitespace and
sign, then `inf`/`infinity`/`nan` (case-insensitive) or a float literal. -/
def pyFloatParsea (cs0 : List Char) : Bool :=
  let cs := quitarSigno ((stripWs cs0).map Char.toLower)
  cs = "inf".data || cs = "infinity".data || cs = "nan".data || numeroFlotante cs

/-- Whether Python `int(s)` succeeds in base 10 (ASCII model): optional
whitespace and sign, then a nonempty digit-part. -/
def pyIntParsea (cs0 : List Char) : Bool :=
  match consumeDigitPart (quitarSigno (stripWs cs0)) with
  | Option.some [] => true
  | _ => false

/-! ### Python values as the analyzer observes them

The analyzers only inspect a cell value through `is None`, truthiness
(`if c`), `type(v).__name__` and `str(v)`.  `Valor.obj ty s b` stands for a
non-null Python value whose type name is `ty`, whose `str()` is `s` and whose
truth value is `b`; CSV cells are strings, for which `str` is the identity
and truthiness is nonemptiness. -/

inductive Valor where
  | nulo : Valor
  | obj (tipoNombre : String) (cadena : String) (viva : Bool) : Valor
deriving DecidableEq, Repr

/-- Python `str(v)` for a non-null value (never applied to `None` here). -/
def Valor.cadenaDe : Valor → String
  | .nulo => "None"
  | .obj _ s _ => s

/-- Python `v is None`. -/
def Valor.esNulo : Valor → Bool
  | .nulo => true
  | .obj _ _ _ => false

/-- Python truthiness `if v`. -/
def Valor.esViva : Valor → Bool
  | .nulo => false
  | .obj _ _ b => b

/-- Python `type(v).__name__`. -/
def Valor.nombreTipo : Valor → String
  | .nulo => "NoneType"
  | .obj ty _ _ => ty

/-- A CSV cell: a plain Python string. -/
def Valor.deCadena (s : String) : Valor := .obj "str" s (decide (s ≠ ""))

/-! ### Type detectors -/

/-- `_detectar_tipo`: classify a string value. -/
def detectarTipo (v : String) : String :=
  let cs := v.data
  if cs.isEmpty || (stripWs cs).isEmpty then "texto"
  else if pyIntParsea (stripWs (sinSeparadores cs)) then
    if cs.contains '.' || cs.contains ',' then "decimal" else "entero"
  else if pyFloatParsea (stripWs (comaAPunto cs)) then "decimal"
  else if (cs.contains '/' || cs.contains '-') && cs.length ≤ 20
          && cs.any esDigito then "fecha"
  else "texto"

/-- `_detectar_tipo_valor`: classify a native (spreadsheet) value by its
Python type name. -/
def detectarTipoValor (v : Valor) : String :=
  match v with
  | .nulo => "texto"
  | .obj ty _ _ =>
    if ty = "int" || ty = "int64" || ty = "int32" then "entero"
    else if ty = "float" || ty = "float64" || ty = "float32" then "decimal"
    else if ty = "datetime" then "fecha"
    else if ty = "bool" then "booleano"
    else "texto"

/-- `p.isPrefixOf s` on character lists. -/
def esPrefijo : List Char → List Char → Bool
  | [], _ => true
  | _ :: _, [] => false
  | a :: ps, b :: ss => a = b && esPrefijo ps ss

/-- Python substring test `pat in s` on character lists. -/
def contieneSub (pat : List Char) : List Char → Bool
  | [] => esPrefijo pat []
  | b :: ss => esPrefijo pat (b :: ss) || contieneSub pat ss

/-- `_traducir_tipo_arrow`: map an Arrow logical type name to a category,
falling back to the raw type name itself. -/
def traducirTipoArrow (t : String) : String :=
  let tl := t.data.map Char.toLower
  if contieneSub "int".data tl then "entero"
  else if contieneSub "float".data tl || contieneSub "double".data tl then "decimal"
  else if contieneSub "timestamp".data tl || contieneSub "date".data tl then "fecha"
  else if contieneSub "bool".data tl then "booleano"
  else if contieneSub "string".data tl || contieneSub "utf8".data tl then "texto"
  else t

/-! ### Header scoring (`_es_encabezado_valido`)

All float increments of the scorer are multiples of 0.1, so a score is kept
exactly as `t / (10 * d)` with `t : Int` the numerator in tenths and `d` the
divisor used by the normalization step (the count of scored cells, or 1). -/

/-- The `palabras_header` keyword vocabulary. -/
def palabrasHeader : List String :=
  ["id", "nombre", "name", "fecha", "date", "codigo", "code", "tipo", "type",
   "descripcion", "description", "cantidad", "amount", "total", "precio", "price",
   "estado", "status", "usuario", "user", "email", "telefono", "phone",
   "direccion", "address", "ciudad", "city", "pais", "country", "numero", "number",
   "clave", "key", "valor", "value", "categoria", "category", "producto", "product",
   "cliente", "customer", "orden", "order", "factura", "invoice", "cuenta", "account",
   "año", "year", "mes", "month", "dia", "day", "hora", "time", "created", "updated"]

/-- The identifier pattern `^[a-zA-Z][a-zA-Z0-9_]*$`. -/
def esIdentificador : List Char → Bool
  | [] => false
  | c :: r => esAlfa c && r.all (fun d => esAlfa d || esDigito d || d = '_')

/-- Score contribution of one scored cell, in tenths: `-0.3` for a numeric
cell (skipping every bonus), otherwise keyword / identifier / length bonuses
and the over-length penalty.  Input is the cell text stripped and
lower-cased (`celda_str`). -/
def puntuarCelda (cs : List Char) : Int :=
  if pyFloatParsea (comaAPunto cs) then -3
  else
    (if palabrasHeader.any (fun p => contieneSub p.data cs) then 5 else 0)
    + (if 2 ≤ cs.length && cs.length ≤ 50 then 2 else 0)
    + (if esIdentificador cs then 3 else 0)
    + (if 100 < cs.length then -5 else 0)

/-- The cell text the scoring loop examines: `none` when the cell is `None`
or blank after stripping (the loop `continue`s), otherwise
`str(celda).strip().lower()`. -/
def celdaContenido : Valor → Option (List Char)
  | .nulo => Option.none
  | .obj _ s _ =>
    let t := stripWs s.data
    if t.isEmpty then Option.none else Option.some (t.map Char.toLower)

/-- An exact score `t / (10 * d)`; `d` is always positive by construction. -/
structure Puntaje where
  t : Int
  d : Nat
deriving DecidableEq, Repr

/-- Rational value of a score. -/
def Puntaje.val (p : Puntaje) : ℚ := (p.t : ℚ) / (10 * p.d)

/-- Exact comparison `p > q` by cross-multiplication. -/
def Puntaje.mayorQue (p q : Puntaje) : Bool := q.t * p.d < p.t * q.d

/-- `_es_encabezado_valido`: returns `(es_encabezado, score)`.  Rows with
fewer than two truthy cells are rejected with score 0; otherwise the summed
cell scores are normalized by the count of scored cells and the sparse-row
penalty is applied; the row is header-eligible iff the score exceeds 0.1. -/
def esEncabezadoValido (fila : List Valor) : Bool × Puntaje :=
  if (fila.filter Valor.esViva).length < 2 then (false, ⟨0, 1⟩)
  else
    let contenidos := fila.filterMap celdaContenido
    let cv := contenidos.length
    let s : Int := (contenidos.map puntuarCelda).sum
    let d : Nat := if 0 < cv then cv else 1
    let t : Int := if 2 * cv < fila.length then s - 5 * d else s
    (decide ((d : Int) < t), ⟨t, d⟩)

/-! ### Header selection (`_buscar_fila_encabezado`) -/

/-- The selection fold: keep `(mejor_score, mejor_idx, mejor_fila)`,
replacing it whenever a row is header-eligible with a strictly higher
score. -/
def mejorCandidatoAux : List (List Valor) → Nat → Puntaje × Nat × List Valor →
    Puntaje × Nat × List Valor
  | [], _, acc => acc
  | f :: rest, idx, acc =>
    let p := esEncabezadoValido f
    mejorCandidatoAux rest (idx + 1) (if p.1 && p.2.mayorQue acc.1 then (p.2, idx, f) else acc)

/-- Select the best header row among the first 20 rows, starting from score
−1; when no row was selected, fall back to row 0. -/
def seleccionarFila (filas : List (List Valor)) : Nat × List Valor :=
  let m := mejorCandidatoAux (filas.take MAX_FILAS_BUSQUEDA_HEADER) 0 (⟨-10, 1⟩, 0, [])
  if m.2.2.isEmpty then (0, filas.headD []) else m.2

/-- Header cleanup for one cell: null or blank cells become the positional
placeholder, other cells are stripped. -/
def limpiarCelda (i : Nat) (v : Valor) : String :=
  match v with
  | .nulo => "Col_" ++ toString (i + 1)
  | .obj _ s _ =>
    let t := stripWs s.data
    if t.isEmpty then "Col_" ++ toString (i + 1) else String.mk t

/-- Header cleanup (`headers` loop of `_buscar_fila_encabezado`). -/
def limpiarEncabezados (fila : List Valor) : List String :=
  fila.enum.map (fun p => limpiarCelda p.1 p.2)

/-- `_buscar_fila_encabezado`: `(índice_fila, encabezados)`. -/
def buscarFilaEncabezado (filas : List (List Valor)) : Nat × List String :=
  let s := seleccionarFila filas
  (s.1, limpiarEncabezados s.2)

/-! ### Per-column streaming state

`valores_unicos` and `tipos_detectados` are Python dicts keyed by header
name (duplicate header names share one entry), modelled as total functions
from names; absent keys carry the initial value the code would install. -/

/-- `str(val)[:50]`. -/
def truncar50 (s : String) : String := String.mk (s.data.take 50)

/-- Per-column streaming state of one analysis: the sample sets
(`valores_unicos`) and the detected types (`tipos_detectados`). -/
structure EstadoCols where
  muestras : String → Finset String
  tipos : String → String

/-- The state right after the headers are installed: empty sample sets and
every column typed `texto`. -/
def estadoInicial : EstadoCols := ⟨fun _ => ∅, fun _ => "texto"⟩

/-- How one analyzer looks at a raw cell: the visibility gate under which a
value is sampled and typed, Python `str`, and the per-value type
detector. -/
structure EsquemaCeldas (α : Type) where
  visible : α → Bool
  aCadena : α → String
  clasificar : α → String

/-- The CSV view: cells are strings, visible when nonblank
(`if val and str(val).strip()`), classified by `_detectar_tipo`. -/
def esquemaCSV : EsquemaCeldas String :=
  ⟨fun s => !(stripWs s.data).isEmpty, id, detectarTipo⟩

/-- The spreadsheet view: cells are native values, visible when not `None`,
classified by `_detectar_tipo_valor`. -/
def esquemaExcel : EsquemaCeldas Valor :=
  ⟨fun v => !v.esNulo, Valor.cadenaDe, detectarTipoValor⟩

/-- Sampling step for one visible cell: insert the truncated string only
while the column holds fewer than `MUESTRA_VALORES` samples. -/
def muestrearCelda (E : EsquemaCeldas α) (col : String) (v : α)
    (m : String → Finset String) : String → Finset String :=
  if (m col).card < MUESTRA_VALORES then
    Function.update m col (insert (truncar50 (E.aCadena v)) (m col))
  else m

/-- Typing step for one visible cell: promote the column from `texto` to the
first non-`texto` classification. -/
def tiparCelda (E : EsquemaCeldas α) (col : String) (v : α)
    (tp : String → String) : String → String :=
  let τ := E.clasificar v
  if tp col = "texto" ∧ τ ≠ "texto" then Function.update tp col τ else tp

/-- One cell of one data row (`_procesar_fila_datos` body, and the Excel
inner loop): invisible cells are skipped; typing only runs for the first
1000 data rows. -/
def procesarCelda (E : EsquemaCeldas α) (filaNum : Nat) (st : EstadoCols)
    (col : String) (v : α) : EstadoCols :=
  if E.visible v then
    ⟨muestrearCelda E col v st.muestras,
     if filaNum ≤ 1000 then tiparCelda E col v st.tipos else st.tipos⟩
  else st

/-- One data row: cells are matched positionally with the headers
(`for i, val in enumerate(row): if i < len(headers)`). -/
def procesarFilaDatos (E : EsquemaCeldas α) (headers : List String)
    (fila : List α) (filaNum : Nat) (st : EstadoCols) : EstadoCols :=
  (fila.zip headers).foldl (fun s p => procesarCelda E filaNum s p.2 p.1) st

/-- The data-row loop from an arbitrary `(filas_leidas, state)`
accumulator. -/
def procesarDatos (E : EsquemaCeldas α) (headers : List String)
    (datos : List (List α)) (acc : Nat × EstadoCols) : Nat × EstadoCols :=
  datos.foldl (fun a f => (a.1 + 1, procesarFilaDatos E headers f (a.1 + 1) a.2)) acc

/-! ### The unified per-file / per-sheet result -/

/-- The fields of the result dict shared by the analyzers; `filaEncabezado`
is the 1-based `fila_encabezado` the code stores. -/
structure Resultado where
  columnas : List String
  totalFilas : Nat
  muestras : String → Finset String
  tipos : String → String
  filaEncabezado : Nat
  error : Option String

/-- The spec-level 0-based `headerRowIndex` of a result. -/
def Resultado.indiceEncabezado (r : Resultado) : Nat := r.filaEncabezado - 1

/-- The result as initialized before any row is read. -/
def resultadoVacio : Resultado :=
  ⟨[], 0, fun _ => ∅, fun _ => "texto", 1, Option.none⟩

/-! ### `analizar_csv`

The read loop buffers rows 0..20 (it appends before testing `i >= 20`, so
21 rows) into `primeras_filas`, detects the header among the first 20 of
them, replays the buffered rows after the header and then streams the rest.
`analizarCSVGen rows (some (k, msg))` models an exception raised inside the
streaming loop once `k` data rows have been processed: `total_filas` and
`muestra_valores` have not been written yet, while `columnas`,
`fila_encabezado` and the promoted `tipos_detectados` entries survive in the
returned dict. -/

/-- CSV rows as the Python values the header detector sees. -/
def filaDeCadenas (l : List String) : List Valor := l.map Valor.deCadena

/-- Header search of `analizar_csv` over the buffered lead rows. -/
def encabezadoCSV (rows : List (List String)) : Nat × List String :=
  buscarFilaEncabezado ((rows.take (MAX_FILAS_BUSQUEDA_HEADER + 1)).map filaDeCadenas)

/-- The data rows `analizar_csv` feeds to `_procesar_fila_datos`: the
buffered rows after the header, then the remainder of the file. -/
def datosCSV (rows : List (List String)) : List (List String) :=
  (rows.take (MAX_FILAS_BUSQUEDA_HEADER + 1)).drop ((encabezadoCSV rows).1 + 1)
    ++ rows.drop (MAX_FILAS_BUSQUEDA_HEADER + 1)

/-- `analizar_csv` on the row stream of the file; `fallo = some (k, msg)`
injects a mid-stream exception after `k` processed data rows. -/
def analizarCSVGen (rows : List (List String)) (fallo : Option (Nat × String)) :
    Resultado :=
  match rows with
  | [] => resultadoVacio
  | _ :: _ =>
    let hdr := encabezadoCSV rows
    match fallo with
    | Option.none =>
      let fin := procesarDatos esquemaCSV hdr.2 (datosCSV rows) (0, estadoInicial)
      ⟨hdr.2, fin.1, fin.2.muestras, fin.2.tipos, hdr.1 + 1, Option.none⟩
    | Option.some (k, msg) =>
      let fin := procesarDatos esquemaCSV hdr.2 ((datosCSV rows).take k) (0, estadoInicial)
      ⟨hdr.2, 0, fun _ => ∅, fin.2.tipos, hdr.1 + 1, Option.some msg⟩

/-- `analizar_csv` without failure. -/
def analizarCSV (rows : List (List String)) : Resultado :=
  analizarCSVGen rows Option.none

/-! ### `analizar_excel` -/

/-- One sheet of `analizar_excel`: the header is detected among the first 20
rows (`primeras_filas`), the rows after the header row are the data rows. -/
def analizarHoja (rows : List (List Valor)) : Resultado :=
  match rows with
  | [] => resultadoVacio
  | _ :: _ =>
    let hdr := buscarFilaEncabezado (rows.take MAX_FILAS_BUSQUEDA_HEADER)
    let fin := procesarDatos esquemaExcel hdr.2 (rows.drop (hdr.1 + 1)) (0, estadoInicial)
    ⟨hdr.2, fin.1, fin.2.muestras, fin.2.tipos, hdr.1 + 1, Option.none⟩

/-- The error text of the missing-`openpyxl` result. -/
def mensajeImportExcel : String := "Instala openpyxl: pip install openpyxl"

/-- `analizar_excel` at workbook level: without the optional library the
result is only an error naming it; otherwise one nested result per sheet, in
workbook order. -/
def analizarExcelLibro (openpyxlDisponible : Bool)
    (hojas : List (List (List Valor))) : Option String × List Resultado :=
  if openpyxlDisponible then (Option.none, hojas.map analizarHoja)
  else (Option.some mensajeImportExcel, [])

/-! ### `analizar_parquet` -/

/-- Parquet file metadata: the row count and the schema as
(name, logical type name) pairs, available without scanning rows. -/
structure MetaParquet where
  numRows : Nat
  esquema : List (String × String)

/-- The sampling loop over one column of the first batch:
`for i in range(min(len(column), MUESTRA_VALORES * 2)))`, stopping once the
column holds `MUESTRA_VALORES` samples, skipping nulls. -/
def muestrearColParquet : Nat → List Valor → Finset String → Finset String
  | _, [], acc => acc
  | 0, _ :: _, acc => acc
  | fuel + 1, v :: vs, acc =>
    if MUESTRA_VALORES ≤ acc.card then acc
    else
      match v with
      | .nulo => muestrearColParquet fuel vs acc
      | .obj _ s _ => muestrearColParquet fuel vs (insert (truncar50 s) acc)

/-- Sampling over one record batch: per result column, columns already
holding `MUESTRA_VALORES` samples are skipped, missing columns (the
`except: continue`) leave the state unchanged. -/
def muestrasDeLote (columnas : List String) (lote : List (String × List Valor))
    (m : String → Finset String) : String → Finset String :=
  columnas.foldl (fun m c =>
    if MUESTRA_VALORES ≤ (m c).card then m
    else
      match lote.find? (fun p => p.1 == c) with
      | Option.some p =>
        Function.update m c (muestrearColParquet (MUESTRA_VALORES * 2) p.2 (m c))
      | Option.none => m) m

/-- `tipos_detectados` of the Parquet result: the dict comprehension over
the schema (later duplicate field names overwrite earlier ones). -/
def tiposDeEsquema (esquema : List (String × String)) : String → String :=
  fun c =>
    match esquema.reverse.find? (fun p => p.1 == c) with
    | Option.some p => traducirTipoArrow p.2
    | Option.none => "texto"

/-- `analizar_parquet`: `total_filas` and the columns come from the
metadata alone; samples come from the first batch only (the loop breaks
after one batch). -/
def analizarParquet (meta : MetaParquet)
    (lotes : List (List (String × List Valor))) : Resultado :=
  let columnas := meta.esquema.map Prod.fst
  let m : String → Finset String :=
    match lotes with
    | [] => fun _ => ∅
    | lote :: _ => muestrasDeLote columnas lote (fun _ => ∅)
  ⟨columnas, meta.numRows, m, tiposDeEsquema meta.esquema, 1, Option.none⟩

/-! ### The per-file error boundary of `generar_reporte_datos` -/

/-- The `try/except` around one file's analysis: a raised exception becomes
the `error` field of a fresh result for that file. -/
def fronteraArchivo (x : Except String Resultado) : Resultado :=
  match x with
  | .ok r => r
  | .error m => { resultadoVacio with error := Option.some m }

/-- The batch loop over the discovered files: each file's outcome is
converted at the boundary and appended, and the loop always continues with
the remaining files. -/
def procesarLoteArchivos : List (Except String Resultado) → List Resultado
  | [] => []
  | x :: resto => fronteraArchivo x :: procesarLoteArchivos resto

/-- The error text of the missing-`pyarrow` result. -/
def mensajeImportParquet : String := "Instala pyarrow: pip install pyarrow"

/-- `analizar_parquet` including the import guard: without the optional
library the result is only an error naming it. -/
def analizarParquetSeguro (pyarrowDisponible : Bool) (meta : MetaParquet)
    (lotes : List (List (String × List Valor))) : Resultado :=
  if pyarrowDisponible then analizarParquet meta lotes
  else { resultadoVacio with error := Option.some mensajeImportParquet }

/-! ### Separated passes used to state the 1000-row typing bound

`procesarDatos` interleaves sampling and typing; these two single-purpose
passes let the theorems say that the final types depend only on the first
1000 data rows while the samples and the row count cover every data row. -/

/-- The sampling effect of one data row alone. -/
def muestrearFilaSola (E : EsquemaCeldas α) (headers : List String)
    (fila : List α) (m : String → Finset String) : String → Finset String :=
  (fila.zip headers).foldl
    (fun m p => if E.visible p.1 then muestrearCelda E p.2 p.1 m else m) m

/-- The typing effect of one data row alone (no row-number guard). -/
def tiparFilaSola (E : EsquemaCeldas α) (headers : List String)
    (fila : List α) (tp : String → String) : String → String :=
  (fila.zip headers).foldl
    (fun tp p => if E.visible p.1 then tiparCelda E p.2 p.1 tp else tp) tp

/-- Sampling pass over a block of data rows. -/
def muestrasPasada (E : EsquemaCeldas α) (headers : List String)
    (datos : List (List α)) (m : String → Finset String) : String → Finset String :=
  datos.foldl (fun m f => muestrearFilaSola E headers f m) m

/-- Typing pass over a block of data rows. -/
def tiposPasada (E : EsquemaCeldas α) (headers : List String)
    (datos : List (List α)) (tp : String → String) : String → String :=
  datos.foldl (fun tp f => tiparFilaSola E headers f tp) tp

/-- The streaming state of `analizar_csv` after `n` processed data rows. -/
def estadoCSVTras (rows : List (List String)) (n : Nat) : EstadoCols :=
  (procesarDatos esquemaCSV (encabezadoCSV rows).2 ((datosCSV rows).take n)
    (0, estadoInicial)).2

/-- Header and data rows of one spreadsheet sheet. -/
def encabezadoHoja (rows : List (List Valor)) : Nat × List String :=
  buscarFilaEncabezado (rows.take MAX_FILAS_BUSQUEDA_HEADER)

/-- Data rows of one spreadsheet sheet. -/
def datosHoja (rows : List (List Valor)) : List (List Valor) :=
  rows.drop ((encabezadoHoja rows).1 + 1)

/-- The streaming state of one sheet after `n` processed data rows. -/
def estadoHojaTras (rows : List (List Valor)) (n : Nat) : EstadoCols :=
  (procesarDatos esquemaExcel (encabezadoHoja rows).2 ((datosHoja rows).take n)
    (0, estadoInicial)).2

/-- A row is header-eligible iff the scorer flags it. -/
def elegible (f : List Valor) : Prop := (esEncabezadoValido f).1 = true

/-- The rational score of a row. -/
def puntuacion (f : List Valor) : ℚ := (esEncabezadoValido f).2.val

instance (f : List Valor) : Decidable (elegible f) := by
  unfold elegible; infer_instance

/-- The rows of scenario A. -/
def escenarioA : List (List String) :=
  [["Report 2024"], ["", ""], ["id", "name", "amount"], ["1", "Alice", "100.5"]]

/-- The scenario-A rows as the header detector sees them. -/
def filasEscenarioA : List (List Valor) := escenarioA.map filaDeCadenas

/-- Well-formed sample sets for a streaming analyzer: every column holds at
most `MUESTRA_VALORES` samples, each at most 50 characters, and each sample
is a truncation of a visible value of some data row of `D`. -/
def MuestrasBuenas (E : EsquemaCeldas α) (D : List (List α))
    (m : String → Finset String) : Prop :=
  ∀ c, (m c).card ≤ MUESTRA_VALORES ∧
    ∀ x ∈ m c, x.length ≤ 50 ∧
      ∃ fila ∈ D, ∃ v ∈ fila, E.visible v = true ∧ x = truncar50 (E.aCadena v)

/-- A cell is blank (skipped by the scorer) or numeric after `','→'.'`. -/
def celdaNumerica (v : Valor) : Bool :=
  match celdaContenido v with
  | Option.none => true
  | Option.some cs => pyFloatParsea (comaAPunto cs)

/-! ## Proof infrastructure -/

/-- Fold invariant: a property preserved by every step along the traversed
list holds at the end. -/
theorem foldl_inv {σ β : Type _} (step : σ → β → σ) (Inv : σ → Prop) :
    ∀ (l : List β) (s : σ), (∀ s' b, b ∈ l → Inv s' → Inv (step s' b)) →
      Inv s → Inv (l.foldl step s) := by
  intro l
  induction l with
  | nil => intro s _ hs; simpa using hs
  | cons b l ih =>
    intro s hstep hs
    simp only [List.foldl_cons]
    exact ih _ (fun s' b2 hb2 => hstep s' b2 (List.mem_cons_of_mem _ hb2))
      (hstep s b (List.mem_cons_self _ _) hs)

/-- The integer comparison `mayorQue` agrees with the rational order on
score values. -/
theorem Puntaje.mayorQue_iff (p q : Puntaje) (hp : 0 < p.d) (hq : 0 < q.d) :
    p.mayorQue q = true ↔ q.val < p.val := by
  have hpq : (0 : ℚ) < 10 * p.d := by positivity
  have hqq : (0 : ℚ) < 10 * q.d := by positivity
  simp only [Puntaje.mayorQue, Puntaje.val, decide_eq_true_eq]
  rw [div_lt_div_iff₀ hqq hpq]
  constructor
  · intro h
    have h10 : (10 : ℚ) * (q.t * p.d) < 10 * (p.t * q.d) := by
      have : ((q.t * p.d : Int) : ℚ) < ((p.t * q.d : Int) : ℚ) := by exact_mod_cast h
      push_cast at this
      nlinarith [this]
    nlinarith [h10]
  · intro h
    have h10 : (10 : ℚ) * ((q.t : ℚ) * p.d) < 10 * ((p.t : ℚ) * q.d) := by nlinarith [h]
    have : ((q.t : ℚ) * p.d) < ((p.t : ℚ) * q.d) := by nlinarith [h10]
    exact_mod_cast this

/-- A score value exceeds the eligibility threshold 0.1 exactly when its
tenths numerator exceeds its divisor. -/
theorem Puntaje.umbral_iff (p : Puntaje) (hp : 0 < p.d) :
    1 / 10 < p.val ↔ (p.d : Int) < p.t := by
  have hpq : (0 : ℚ) < 10 * p.d := by positivity
  have h10 : (0 : ℚ) < 10 := by norm_num
  simp only [Puntaje.val]
  rw [div_lt_div_iff₀ h10 hpq]
  constructor
  · intro h
    have : (10 : ℚ) * (p.d : ℚ) < 10 * (p.t : ℚ) := by nlinarith [h]
    have h2 : ((p.d : Int) : ℚ) < ((p.t : Int) : ℚ) := by push_cast; nlinarith [this]
    exact_mod_cast h2
  · intro h
    have h2 : ((p.d : Int) : ℚ) < ((p.t : Int) : ℚ) := by exact_mod_cast h
    push_cast at h2
    nlinarith [h2]

/-- A score with nonpositive tenths numerator has nonpositive value. -/
theorem Puntaje.val_nonpos (p : Puntaje) (h : p.t ≤ 0) : p.val ≤ 0 := by
  have h1 : ((p.t : ℚ)) ≤ 0 := by exact_mod_cast h
  have h2 : (0 : ℚ) ≤ 10 * p.d := by positivity
  exact div_nonpos_of_nonpos_of_nonneg h1 h2

/-- The rejection score is zero. -/
theorem Puntaje.val_rechazo : (⟨0, 1⟩ : Puntaje).val = 0 := by
  simp [Puntaje.val]

theorem Puntaje.t_mk (t : Int) (d : Nat) : (⟨t, d⟩ : Puntaje).t = t := rfl

theorem Puntaje.d_mk (t : Int) (d : Nat) : (⟨t, d⟩ : Puntaje).d = d := rfl

/-- The scorer always produces a positive divisor. -/
theorem esEncabezado_d_pos (fila : List Valor) : 0 < (esEncabezadoValido fila).2.d := by
  simp only [esEncabezadoValido]
  split_ifs <;> simp_all

/-- The eligibility flag is the integer comparison of numerator against
divisor. -/
theorem esEncabezado_fst_eq (fila : List Valor) :
    (esEncabezadoValido fila).1 =
      decide (((esEncabezadoValido fila).2.d : Int) < (esEncabezadoValido fila).2.t) := by
  simp only [esEncabezadoValido]
  split_ifs <;> rfl

/-- A row is eligible exactly when its score exceeds 0.1. -/
theorem elegible_iff (fila : List Valor) : elegible fila ↔ 1 / 10 < puntuacion fila := by
  unfold elegible puntuacion
  rw [esEncabezado_fst_eq, decide_eq_true_eq, Puntaje.umbral_iff _ (esEncabezado_d_pos fila)]

/-- An eligible row is nonempty. -/
theorem elegible_ne_nil (fila : List Valor) (h : elegible fila) : fila ≠ [] := by
  intro h0
  subst h0
  exact absurd h (by decide)

/-- Complete characterization of the selection fold `mejorCandidatoAux`:
the final best score bounds every eligible row's score and the accumulator,
and the final accumulator is either untouched or comes from an eligible row
that strictly beats the incoming accumulator and every eligible row before
it. -/
theorem mejorCandidato_spec (l : List (List Valor)) :
    ∀ (i : Nat) (acc : Puntaje × Nat × List Valor), 0 < acc.1.d →
      0 < (mejorCandidatoAux l i acc).1.d ∧
      acc.1.val ≤ (mejorCandidatoAux l i acc).1.val ∧
      (∀ j (hj : j < l.length), elegible (l.get ⟨j, hj⟩) →
        puntuacion (l.get ⟨j, hj⟩) ≤ (mejorCandidatoAux l i acc).1.val) ∧
      (mejorCandidatoAux l i acc = acc ∨
        ∃ j, ∃ hj : j < l.length,
          elegible (l.get ⟨j, hj⟩) ∧
          (mejorCandidatoAux l i acc).1 = (esEncabezadoValido (l.get ⟨j, hj⟩)).2 ∧
          (mejorCandidatoAux l i acc).2.1 = i + j ∧
          (mejorCandidatoAux l i acc).2.2 = l.get ⟨j, hj⟩ ∧
          acc.1.val < (mejorCandidatoAux l i acc).1.val ∧
          (∀ j2 (hj2 : j2 < l.length), j2 < j → elegible (l.get ⟨j2, hj2⟩) →
            puntuacion (l.get ⟨j2, hj2⟩) < (mejorCandidatoAux l i acc).1.val)) := by
  induction l with
  | nil =>
    intro i acc hacc
    refine ⟨hacc, le_refl _, ?_, Or.inl rfl⟩
    intro j hj
    exact absurd hj (by simp)
  | cons f rest ih =>
    intro i acc hacc
    have hpd : 0 < (esEncabezadoValido f).2.d := esEncabezado_d_pos f
    show 0 < (mejorCandidatoAux rest (i+1) _).1.d ∧ _
    by_cases hcond :
        ((esEncabezadoValido f).1 && (esEncabezadoValido f).2.mayorQue acc.1) = true
    · have hp : (esEncabezadoValido f).1 = true := (Bool.and_eq_true_iff.mp hcond).1
      have hgt : acc.1.val < (esEncabezadoValido f).2.val :=
        (Puntaje.mayorQue_iff _ _ hpd hacc).mp (Bool.and_eq_true_iff.mp hcond).2
      rw [mejorCandidatoAux, if_pos hcond]
      obtain ⟨ihd, ihle, ihmax, ihsel⟩ :=
        ih (i+1) ((esEncabezadoValido f).2, i, f) hpd
      refine ⟨ihd, le_of_lt (lt_of_lt_of_le hgt ihle), ?_, ?_⟩
      · intro j hj hel
        match j with
        | 0 => exact le_trans (le_of_eq rfl) ihle
        | j' + 1 =>
          exact ihmax j' (by simpa using hj) (by simpa using hel)
      · rcases ihsel with heq | ⟨j, hj, hel, h1, h2, h3, h4, h5⟩
        · refine Or.inr ⟨0, by simp, by simpa [elegible] using hp, ?_, ?_, ?_, ?_, ?_⟩
          · simp [heq]
          · simp [heq]
          · simp [heq]
          · simp only [heq]; exact hgt
          · intro j2 hj2 hlt
            exact absurd hlt (by omega)
        · refine Or.inr ⟨j + 1, by simpa using hj, by simpa using hel, h1, ?_,
            by simpa using h3, lt_trans hgt h4, ?_⟩
          · rw [h2]; omega
          · intro j2 hj2 hlt hel2
            match j2 with
            | 0 =>
              have : (esEncabezadoValido f).2.val < (mejorCandidatoAux rest (i+1)
                  ((esEncabezadoValido f).2, i, f)).1.val := h4
              simpa [puntuacion] using this
            | j2' + 1 =>
              exact h5 j2' (by simpa using hj2) (by omega) (by simpa using hel2)
    · rw [mejorCandidatoAux, if_neg hcond]
      obtain ⟨ihd, ihle, ihmax, ihsel⟩ := ih (i+1) acc hacc
      refine ⟨ihd, ihle, ?_, ?_⟩
      · intro j hj hel
        match j with
        | 0 =>
          have hp : (esEncabezadoValido f).1 = true := by
            simpa [elegible] using hel
          have hng : (esEncabezadoValido f).2.mayorQue acc.1 = false := by
            cases hmq : (esEncabezadoValido f).2.mayorQue acc.1
            · rfl
            · exact absurd (by rw [hp, hmq]; rfl) hcond
          have hle : (esEncabezadoValido f).2.val ≤ acc.1.val := by
            by_contra hlt
            rw [(Puntaje.mayorQue_iff _ _ hpd hacc).mpr (lt_of_not_le hlt)] at hng
            simp at hng
          exact le_trans hle ihle
        | j' + 1 =>
          exact ihmax j' (by simpa using hj) (by simpa using hel)
      · rcases ihsel with heq | ⟨j, hj, hel, h1, h2, h3, h4, h5⟩
        · exact Or.inl heq
        · refine Or.inr ⟨j + 1, by simpa using hj, by simpa using hel, h1, ?_,
            by simpa using h3, h4, ?_⟩
          · rw [h2]; omega
          · intro j2 hj2 hlt hel2
            match j2 with
            | 0 =>
              have hp : (esEncabezadoValido f).1 = true := by
                simpa [elegible] using hel2
              have hng : (esEncabezadoValido f).2.mayorQue acc.1 = false := by
                cases hmq : (esEncabezadoValido f).2.mayorQue acc.1
                · rfl
                · exact absurd (by rw [hp, hmq]; rfl) hcond
              have hle : (esEncabezadoValido f).2.val ≤ acc.1.val := by
                by_contra hlt2
                rw [(Puntaje.mayorQue_iff _ _ hpd hacc).mpr (lt_of_not_le hlt2)] at hng
                simp at hng
              calc puntuacion ((f :: rest).get ⟨0, hj2⟩) = (esEncabezadoValido f).2.val := rfl
                _ ≤ acc.1.val := hle
                _ < _ := lt_of_lt_of_le h4 (le_refl _)
            | j2' + 1 =>
              exact h5 j2' (by simpa using hj2) (by omega) (by simpa using hel2)

/-- The initial best score of the search is −1. -/
theorem val_inicial : (⟨-10, 1⟩ : Puntaje).val = -1 := by
  norm_num [Puntaje.val]

/-- The row index selected by the header search is always below
`min 20 (number of rows)` for a nonempty row list. -/
theorem seleccionar_idx_lt (filas : List (List Valor)) (h : filas ≠ []) :
    (seleccionarFila filas).1 < min MAX_FILAS_BUSQUEDA_HEADER filas.length := by
  have hlen : 0 < filas.length := List.length_pos.mpr h
  have hmin : 0 < min MAX_FILAS_BUSQUEDA_HEADER filas.length := by
    simp only [MAX_FILAS_BUSQUEDA_HEADER]; omega
  obtain ⟨-, -, -, hsel⟩ :=
    mejorCandidato_spec (filas.take MAX_FILAS_BUSQUEDA_HEADER) 0 (⟨-10, 1⟩, 0, [])
      (by norm_num)
  simp only [seleccionarFila]
  by_cases hE :
      (mejorCandidatoAux (filas.take MAX_FILAS_BUSQUEDA_HEADER) 0 (⟨-10, 1⟩, 0, [])).2.2.isEmpty
  · rw [if_pos hE]
    exact hmin
  · rw [if_neg hE]
    rcases hsel with heq | ⟨j, hj, -, -, h2, -, -, -⟩
    · rw [heq] at hE
      exact absurd rfl hE
    · rw [h2]
      rw [List.length_take] at hj
      omega

/-- The header row chosen by `seleccionarFila` when at least one of the
first 20 rows is eligible: the eligible row of maximal score, earliest
index first. -/
theorem seleccionar_elegible (filas : List (List Valor))
    (hay : ∃ j, ∃ hj : j < (filas.take MAX_FILAS_BUSQUEDA_HEADER).length,
      elegible ((filas.take MAX_FILAS_BUSQUEDA_HEADER).get ⟨j, hj⟩)) :
    ∃ j0, ∃ hj0 : j0 < (filas.take MAX_FILAS_BUSQUEDA_HEADER).length,
      seleccionarFila filas = (j0, (filas.take MAX_FILAS_BUSQUEDA_HEADER).get ⟨j0, hj0⟩) ∧
      elegible ((filas.take MAX_FILAS_BUSQUEDA_HEADER).get ⟨j0, hj0⟩) ∧
      (∀ j (hj : j < (filas.take MAX_FILAS_BUSQUEDA_HEADER).length),
        elegible ((filas.take MAX_FILAS_BUSQUEDA_HEADER).get ⟨j, hj⟩) →
        puntuacion ((filas.take MAX_FILAS_BUSQUEDA_HEADER).get ⟨j, hj⟩) ≤
          puntuacion ((filas.take MAX_FILAS_BUSQUEDA_HEADER).get ⟨j0, hj0⟩)) ∧
      (∀ j (hj : j < (filas.take MAX_FILAS_BUSQUEDA_HEADER).length), j < j0 →
        elegible ((filas.take MAX_FILAS_BUSQUEDA_HEADER).get ⟨j, hj⟩) →
        puntuacion ((filas.take MAX_FILAS_BUSQUEDA_HEADER).get ⟨j, hj⟩) <
          puntuacion ((filas.take MAX_FILAS_BUSQUEDA_HEADER).get ⟨j0, hj0⟩)) := by
  obtain ⟨j, hj, hel⟩ := hay
  obtain ⟨-, -, hmax, hsel⟩ :=
    mejorCandidato_spec (filas.take MAX_FILAS_BUSQUEDA_HEADER) 0 (⟨-10, 1⟩, 0, [])
      (by norm_num)
  have hjgt : 1 / 10 < puntuacion ((filas.take MAX_FILAS_BUSQUEDA_HEADER).get ⟨j, hj⟩) :=
    (elegible_iff _).mp hel
  rcases hsel with heq | ⟨j0, hj0, hel0, h1, h2, h3, -, h5⟩
  · have := hmax j hj hel
    rw [heq, val_inicial] at this
    linarith
  · have hvalsel :
        (mejorCandidatoAux (filas.take MAX_FILAS_BUSQUEDA_HEADER) 0 (⟨-10, 1⟩, 0, [])).1.val =
          puntuacion ((filas.take MAX_FILAS_BUSQUEDA_HEADER).get ⟨j0, hj0⟩) := by
      rw [h1]; rfl
    have hne : ((filas.take MAX_FILAS_BUSQUEDA_HEADER).get ⟨j0, hj0⟩) ≠ [] :=
      elegible_ne_nil _ hel0
    refine ⟨j0, hj0, ?_, hel0, ?_, ?_⟩
    · simp only [seleccionarFila]
      rw [if_neg (by rw [h3]; simpa using hne)]
      have : (mejorCandidatoAux (filas.take MAX_FILAS_BUSQUEDA_HEADER) 0 (⟨-10, 1⟩, 0, [])).2 =
          ((mejorCandidatoAux (filas.take MAX_FILAS_BUSQUEDA_HEADER) 0 (⟨-10, 1⟩, 0, [])).2.1,
           (mejorCandidatoAux (filas.take MAX_FILAS_BUSQUEDA_HEADER) 0 (⟨-10, 1⟩, 0, [])).2.2) :=
        rfl
      rw [this, h2, h3]
      simp
    · intro j2 hj2 hel2
      have := hmax j2 hj2 hel2
      rw [hvalsel] at this
      exact this
    · intro j2 hj2 hlt hel2
      have := h5 j2 hj2 (by omega) hel2
      rw [hvalsel] at this
      exact this

/-- When no row among the first 20 is eligible, the search falls back to
row 0. -/
theorem seleccionar_fallback (filas : List (List Valor))
    (hno : ∀ j (hj : j < (filas.take MAX_FILAS_BUSQUEDA_HEADER).length),
      ¬ elegible ((filas.take MAX_FILAS_BUSQUEDA_HEADER).get ⟨j, hj⟩)) :
    seleccionarFila filas = (0, filas.headD []) := by
  obtain ⟨-, -, -, hsel⟩ :=
    mejorCandidato_spec (filas.take MAX_FILAS_BUSQUEDA_HEADER) 0 (⟨-10, 1⟩, 0, [])
      (by norm_num)
  rcases hsel with heq | ⟨j0, hj0, hel0, -, -, -, -, -⟩
  · simp only [seleccionarFila]
    rw [heq]
    simp
  · exact absurd hel0 (hno j0 hj0)

/-! ## The claims -/

/-- **C1** For the input rows
`[["Report 2024"], ["",""], ["id","name","amount"], ["1","Alice","100.5"]]`
fed to CSV analysis, the result has `headerRowIndex = 2`,
`columns = ["id","name","amount"]` and column types
id ↦ integer, name ↦ text, amount ↦ decimal. -/
theorem csv_escenarioA_correcto :
    (analizarCSV escenarioA).indiceEncabezado = 2 ∧
    (analizarCSV escenarioA).columnas = ["id", "name", "amount"] ∧
    (analizarCSV escenarioA).tipos "id" = "entero" ∧
    (analizarCSV escenarioA).tipos "name" = "texto" ∧
    (analizarCSV escenarioA).tipos "amount" = "decimal" := by
  refine ⟨by decide, by decide, by decide, by decide, by decide⟩

/-- **C2** For every analyzed file and every spreadsheet sheet, the 0-based
header row index lies in `[0, min(20, rowsSeen) - 1]`, or else the result
has no columns. -/
theorem indice_encabezado_acotado (rows : List (List String))
    (hoja : List (List Valor)) :
    ((analizarCSV rows).columnas = [] ∨
      (analizarCSV rows).indiceEncabezado < min MAX_FILAS_BUSQUEDA_HEADER rows.length) ∧
    ((analizarHoja hoja).columnas = [] ∨
      (analizarHoja hoja).indiceEncabezado < min MAX_FILAS_BUSQUEDA_HEADER hoja.length) := by
  constructor
  · cases rows with
    | nil => exact Or.inl rfl
    | cons r rest =>
      refine Or.inr ?_
      have hne : ((r :: rest).take (MAX_FILAS_BUSQUEDA_HEADER + 1)).map filaDeCadenas ≠ [] := by
        simp [MAX_FILAS_BUSQUEDA_HEADER, filaDeCadenas]
      have hlt := seleccionar_idx_lt _ hne
      show (analizarCSV (r :: rest)).filaEncabezado - 1 < _
      have h1 : (analizarCSV (r :: rest)).filaEncabezado = (encabezadoCSV (r :: rest)).1 + 1 := rfl
      rw [h1, Nat.add_sub_cancel]
      have h2 : (encabezadoCSV (r :: rest)).1 =
          (seleccionarFila (((r :: rest).take (MAX_FILAS_BUSQUEDA_HEADER + 1)).map
            filaDeCadenas)).1 := rfl
      rw [h2]
      rw [List.length_map, List.length_take] at hlt
      simp only [MAX_FILAS_BUSQUEDA_HEADER] at hlt ⊢
      omega
  · cases hoja with
    | nil => exact Or.inl rfl
    | cons r rest =>
      refine Or.inr ?_
      have hne : (r :: rest).take MAX_FILAS_BUSQUEDA_HEADER ≠ [] := by
        simp [MAX_FILAS_BUSQUEDA_HEADER]
      have hlt := seleccionar_idx_lt _ hne
      show (analizarHoja (r :: rest)).filaEncabezado - 1 < _
      have h1 : (analizarHoja (r :: rest)).filaEncabezado =
          (buscarFilaEncabezado ((r :: rest).take MAX_FILAS_BUSQUEDA_HEADER)).1 + 1 := rfl
      rw [h1, Nat.add_sub_cancel]
      have h2 : (buscarFilaEncabezado ((r :: rest).take MAX_FILAS_BUSQUEDA_HEADER)).1 =
          (seleccionarFila ((r :: rest).take MAX_FILAS_BUSQUEDA_HEADER)).1 := rfl
      rw [h2]
      rw [List.length_take] at hlt
      simp only [MAX_FILAS_BUSQUEDA_HEADER] at hlt ⊢
      omega

/-- **C6** Header selection picks, among the first 20 rows, the eligible row
with the highest score, ties resolved by lowest index; with no eligible row,
row 0 is used as the header regardless of its score. -/
theorem seleccion_encabezado_optima (filas : List (List Valor)) :
    (buscarFilaEncabezado filas =
      ((seleccionarFila filas).1, limpiarEncabezados (seleccionarFila filas).2)) ∧
    ((∃ j, ∃ hj : j < (filas.take MAX_FILAS_BUSQUEDA_HEADER).length,
        elegible ((filas.take MAX_FILAS_BUSQUEDA_HEADER).get ⟨j, hj⟩)) →
      ∃ j0, ∃ hj0 : j0 < (filas.take MAX_FILAS_BUSQUEDA_HEADER).length,
        seleccionarFila filas = (j0, (filas.take MAX_FILAS_BUSQUEDA_HEADER).get ⟨j0, hj0⟩) ∧
        elegible ((filas.take MAX_FILAS_BUSQUEDA_HEADER).get ⟨j0, hj0⟩) ∧
        (∀ j (hj : j < (filas.take MAX_FILAS_BUSQUEDA_HEADER).length),
          elegible ((filas.take MAX_FILAS_BUSQUEDA_HEADER).get ⟨j, hj⟩) →
          puntuacion ((filas.take MAX_FILAS_BUSQUEDA_HEADER).get ⟨j, hj⟩) ≤
            puntuacion ((filas.take MAX_FILAS_BUSQUEDA_HEADER).get ⟨j0, hj0⟩)) ∧
        (∀ j (hj : j < (filas.take MAX_FILAS_BUSQUEDA_HEADER).length), j < j0 →
          elegible ((filas.take MAX_FILAS_BUSQUEDA_HEADER).get ⟨j, hj⟩) →
          puntuacion ((filas.take MAX_FILAS_BUSQUEDA_HEADER).get ⟨j, hj⟩) <
            puntuacion ((filas.take MAX_FILAS_BUSQUEDA_HEADER).get ⟨j0, hj0⟩))) ∧
    ((∀ j (hj : j < (filas.take MAX_FILAS_BUSQUEDA_HEADER).length),
        ¬ elegible ((filas.take MAX_FILAS_BUSQUEDA_HEADER).get ⟨j, hj⟩)) →
      seleccionarFila filas = (0, filas.headD [])) :=
  ⟨rfl, seleccionar_elegible filas, seleccionar_fallback filas⟩

/-- Witness of the C6 theorem: in scenario A's rows, row 2 is eligible and
the selection returns an eligible row of maximal score. -/
theorem seleccion_encabezado_optima_testigo :
    ∃ j0, ∃ hj0 : j0 < (filasEscenarioA.take MAX_FILAS_BUSQUEDA_HEADER).length,
      seleccionarFila filasEscenarioA =
        (j0, (filasEscenarioA.take MAX_FILAS_BUSQUEDA_HEADER).get ⟨j0, hj0⟩) ∧
      elegible ((filasEscenarioA.take MAX_FILAS_BUSQUEDA_HEADER).get ⟨j0, hj0⟩) ∧
      (∀ j (hj : j < (filasEscenarioA.take MAX_FILAS_BUSQUEDA_HEADER).length),
        elegible ((filasEscenarioA.take MAX_FILAS_BUSQUEDA_HEADER).get ⟨j, hj⟩) →
        puntuacion ((filasEscenarioA.take MAX_FILAS_BUSQUEDA_HEADER).get ⟨j, hj⟩) ≤
          puntuacion ((filasEscenarioA.take MAX_FILAS_BUSQUEDA_HEADER).get ⟨j0, hj0⟩)) ∧
      (∀ j (hj : j < (filasEscenarioA.take MAX_FILAS_BUSQUEDA_HEADER).length), j < j0 →
        elegible ((filasEscenarioA.take MAX_FILAS_BUSQUEDA_HEADER).get ⟨j, hj⟩) →
        puntuacion ((filasEscenarioA.take MAX_FILAS_BUSQUEDA_HEADER).get ⟨j, hj⟩) <
          puntuacion ((filasEscenarioA.take MAX_FILAS_BUSQUEDA_HEADER).get ⟨j0, hj0⟩)) :=
  (seleccion_encabezado_optima filasEscenarioA).2.1 ⟨2, by decide, by decide⟩

/-! ## Streaming-state lemmas -/

theorem procesarDatos_nil (E : EsquemaCeldas α) (headers : List String)
    (acc : Nat × EstadoCols) : procesarDatos E headers [] acc = acc := rfl

theorem procesarDatos_cons (E : EsquemaCeldas α) (headers : List String)
    (f : List α) (datos : List (List α)) (acc : Nat × EstadoCols) :
    procesarDatos E headers (f :: datos) acc =
      procesarDatos E headers datos
        (acc.1 + 1, procesarFilaDatos E headers f (acc.1 + 1) acc.2) := rfl

theorem procesarDatos_append (E : EsquemaCeldas α) (headers : List String)
    (d1 d2 : List (List α)) (acc : Nat × EstadoCols) :
    procesarDatos E headers (d1 ++ d2) acc =
      procesarDatos E headers d2 (procesarDatos E headers d1 acc) := by
  simp [procesarDatos, List.foldl_append]

theorem muestrasPasada_cons (E : EsquemaCeldas α) (headers : List String)
    (f : List α) (datos : List (List α)) (m : String → Finset String) :
    muestrasPasada E headers (f :: datos) m =
      muestrasPasada E headers datos (muestrearFilaSola E headers f m) := rfl

theorem tiposPasada_cons (E : EsquemaCeldas α) (headers : List String)
    (f : List α) (datos : List (List α)) (tp : String → String) :
    tiposPasada E headers (f :: datos) tp =
      tiposPasada E headers datos (tiparFilaSola E headers f tp) := rfl

/-- One data row acts on the two state components independently: sampling
does not read the types, typing does not read the samples and only happens
for row numbers up to 1000. -/
theorem procesarFila_split (E : EsquemaCeldas α) (headers : List String)
    (fila : List α) (n : Nat) (st : EstadoCols) :
    procesarFilaDatos E headers fila n st =
      ⟨muestrearFilaSola E headers fila st.muestras,
       if n ≤ 1000 then tiparFilaSola E headers fila st.tipos else st.tipos⟩ := by
  unfold procesarFilaDatos muestrearFilaSola tiparFilaSola
  generalize fila.zip headers = ps
  induction ps generalizing st with
  | nil => by_cases hn : n ≤ 1000 <;> simp [hn]
  | cons p ps ih =>
    simp only [List.foldl_cons]
    rw [ih]
    by_cases hv : E.visible p.1 <;> by_cases hn : n ≤ 1000 <;>
      simp [procesarCelda, hv, hn]

/-- The combined data-row loop equals: count all rows, sample all rows,
type only the rows numbered up to 1000. -/
theorem procesarDatos_split (E : EsquemaCeldas α) (headers : List String) :
    ∀ (datos : List (List α)) (n0 : Nat) (st : EstadoCols),
      procesarDatos E headers datos (n0, st) =
        (n0 + datos.length,
         ⟨muestrasPasada E headers datos st.muestras,
          tiposPasada E headers (datos.take (1000 - n0)) st.tipos⟩) := by
  intro datos
  induction datos with
  | nil =>
    intro n0 st
    simp [procesarDatos_nil, muestrasPasada, tiposPasada]
  | cons f datos ih =>
    intro n0 st
    rw [procesarDatos_cons]
    show procesarDatos E headers datos (n0 + 1, procesarFilaDatos E headers f (n0 + 1) st) = _
    rw [procesarFila_split, ih]
    by_cases hn : n0 + 1 ≤ 1000
    · have h1 : 1000 - n0 = (1000 - (n0 + 1)) + 1 := by omega
      rw [if_pos hn, h1, List.take_succ_cons, muestrasPasada_cons, tiposPasada_cons]
      refine Prod.ext ?_ rfl
      simp only [List.length_cons]
      omega
    · have h1 : 1000 - n0 = 0 := by omega
      have h2 : 1000 - (n0 + 1) = 0 := by omega
      rw [if_neg hn, h1, h2, List.take_zero, muestrasPasada_cons]
      refine Prod.ext ?_ rfl
      simp only [List.length_cons]
      omega

/-- Typing one cell never rewrites a column already promoted away from
`texto`. -/
theorem tiparCelda_fijo (E : EsquemaCeldas α) (col : String) (v : α)
    (tp : String → String) (c : String) (h : tp c ≠ "texto") :
    tiparCelda E col v tp c = tp c := by
  unfold tiparCelda
  split_ifs with hcond
  · have hne : c ≠ col := fun he => h (by rw [he]; exact hcond.1)
    rw [Function.update_noteq hne]
  · rfl

/-- Processing one cell never rewrites a column already promoted away from
`texto`. -/
theorem procesarCelda_tipos_fijo (E : EsquemaCeldas α) (n : Nat)
    (st : EstadoCols) (col : String) (v : α) (c : String)
    (h : st.tipos c ≠ "texto") :
    (procesarCelda E n st col v).tipos c = st.tipos c := by
  unfold procesarCelda
  split_ifs with hv hn
  · exact tiparCelda_fijo E col v st.tipos c h
  · rfl
  · rfl

/-- Processing one row never rewrites a column already promoted away from
`texto`. -/
theorem procesarFila_tipos_fijo (E : EsquemaCeldas α) (headers : List String)
    (fila : List α) (n : Nat) (st : EstadoCols) (c : String)
    (h : st.tipos c ≠ "texto") :
    (procesarFilaDatos E headers fila n st).tipos c = st.tipos c := by
  have := foldl_inv (fun s p => procesarCelda E n s p.2 p.1)
    (fun s => s.tipos c = st.tipos c) (fila.zip headers) st ?_ rfl
  · exact this
  · intro s' p _ hs
    rw [procesarCelda_tipos_fijo E n s' p.2 p.1 c (by rw [hs]; exact h), hs]

/-- The data loop never rewrites a column already promoted away from
`texto`: detected types are monotone along the stream. -/
theorem procesarDatos_tipos_fijo (E : EsquemaCeldas α) (headers : List String)
    (datos : List (List α)) (acc : Nat × EstadoCols) (c : String)
    (h : acc.2.tipos c ≠ "texto") :
    (procesarDatos E headers datos acc).2.tipos c = acc.2.tipos c := by
  have := foldl_inv
    (fun (a : Nat × EstadoCols) f => (a.1 + 1, procesarFilaDatos E headers f (a.1 + 1) a.2))
    (fun a => a.2.tipos c = acc.2.tipos c) datos acc ?_ rfl
  · exact this
  · intro a f _ ha
    show (procesarFilaDatos E headers f (a.1 + 1) a.2).tipos c = _
    rw [procesarFila_tipos_fijo E headers f (a.1 + 1) a.2 c (by rw [ha]; exact h), ha]

/-- **C3** Per-column type policy, for the CSV analyzer and for each
spreadsheet sheet: every column starts at `texto`; once a column's type is
not `texto` no later row changes it; the final types are computed from the
first 1000 data rows alone, while every data row is counted and sampled;
and the first value that classifies as non-text installs exactly its
classification. -/
theorem tipos_monotonos_y_mil_filas :
    (∀ c, estadoInicial.tipos c = "texto") ∧
    (∀ (rows : List (List String)) (n m : Nat) (c : String),
      (estadoCSVTras rows n).tipos c ≠ "texto" →
      (estadoCSVTras rows (n + m)).tipos c = (estadoCSVTras rows n).tipos c) ∧
    (∀ (hoja : List (List Valor)) (n m : Nat) (c : String),
      (estadoHojaTras hoja n).tipos c ≠ "texto" →
      (estadoHojaTras hoja (n + m)).tipos c = (estadoHojaTras hoja n).tipos c) ∧
    (∀ rows : List (List String), (analizarCSV rows).tipos =
      tiposPasada esquemaCSV (encabezadoCSV rows).2 ((datosCSV rows).take 1000)
        estadoInicial.tipos) ∧
    (∀ rows : List (List String), (analizarCSV rows).totalFilas = (datosCSV rows).length) ∧
    (∀ rows : List (List String), (analizarCSV rows).muestras =
      muestrasPasada esquemaCSV (encabezadoCSV rows).2 (datosCSV rows)
        estadoInicial.muestras) ∧
    (∀ hoja : List (List Valor), (analizarHoja hoja).tipos =
      tiposPasada esquemaExcel (encabezadoHoja hoja).2 ((datosHoja hoja).take 1000)
        estadoInicial.tipos) ∧
    (∀ hoja : List (List Valor), (analizarHoja hoja).totalFilas = (datosHoja hoja).length) ∧
    (∀ hoja : List (List Valor), (analizarHoja hoja).muestras =
      muestrasPasada esquemaExcel (encabezadoHoja hoja).2 (datosHoja hoja)
        estadoInicial.muestras) ∧
    (∀ (tp : String → String) (col : String) (v : String), tp col = "texto" →
      detectarTipo v ≠ "texto" → tiparCelda esquemaCSV col v tp col = detectarTipo v) ∧
    (∀ (tp : String → String) (col : String) (v : Valor), tp col = "texto" →
      detectarTipoValor v ≠ "texto" →
      tiparCelda esquemaExcel col v tp col = detectarTipoValor v) := by
  refine ⟨fun c => rfl, ?_, ?_, ?_, ?_, ?_, ?_, ?_, ?_, ?_, ?_⟩
  · intro rows n m c h
    unfold estadoCSVTras at h ⊢
    rw [List.take_add, procesarDatos_append]
    exact procesarDatos_tipos_fijo _ _ _ _ c h
  · intro hoja n m c h
    unfold estadoHojaTras at h ⊢
    rw [List.take_add, procesarDatos_append]
    exact procesarDatos_tipos_fijo _ _ _ _ c h
  · intro rows
    cases rows with
    | nil => rfl
    | cons r rest =>
      show (procesarDatos esquemaCSV (encabezadoCSV (r :: rest)).2
        (datosCSV (r :: rest)) (0, estadoInicial)).2.tipos = _
      rw [procesarDatos_split]
  · intro rows
    cases rows with
    | nil => rfl
    | cons r rest =>
      show (procesarDatos esquemaCSV (encabezadoCSV (r :: rest)).2
        (datosCSV (r :: rest)) (0, estadoInicial)).1 = _
      rw [procesarDatos_split]
      simp
  · intro rows
    cases rows with
    | nil => rfl
    | cons r rest =>
      show (procesarDatos esquemaCSV (encabezadoCSV (r :: rest)).2
        (datosCSV (r :: rest)) (0, estadoInicial)).2.muestras = _
      rw [procesarDatos_split]
  · intro hoja
    cases hoja with
    | nil => rfl
    | cons r rest =>
      show (procesarDatos esquemaExcel (encabezadoHoja (r :: rest)).2
        (datosHoja (r :: rest)) (0, estadoInicial)).2.tipos = _
      rw [procesarDatos_split]
  · intro hoja
    cases hoja with
    | nil => rfl
    | cons r rest =>
      show (procesarDatos esquemaExcel (encabezadoHoja (r :: rest)).2
        (datosHoja (r :: rest)) (0, estadoInicial)).1 = _
      rw [procesarDatos_split]
      simp
  · intro hoja
    cases hoja with
    | nil => rfl
    | cons r rest =>
      show (procesarDatos esquemaExcel (encabezadoHoja (r :: rest)).2
        (datosHoja (r :: rest)) (0, estadoInicial)).2.muestras = _
      rw [procesarDatos_split]
  · intro tp col v h0 hτ
    unfold tiparCelda
    rw [if_pos ⟨h0, hτ⟩, Function.update_same]
    rfl
  · intro tp col v h0 hτ
    unfold tiparCelda
    rw [if_pos ⟨h0, hτ⟩, Function.update_same]
    rfl


/-- Witness of the C3 theorem: in scenario A the `id` column is promoted to
`entero` by the first data row and the next row does not change it. -/
theorem tipos_monotonos_y_mil_filas_testigo :
    (estadoCSVTras escenarioA (1 + 1)).tipos "id" = (estadoCSVTras escenarioA 1).tipos "id" :=
  tipos_monotonos_y_mil_filas.2.1 escenarioA 1 1 "id" (by decide)

/-- **C10** If CSV analysis fails mid-stream after `k` processed data rows,
the returned result has `error` set while `total_filas` is still 0 and
`muestra_valores` still empty, yet `columnas`, `fila_encabezado` and the
`tipos_detectados` computed from the rows processed before the failure are
retained. -/
theorem fallo_medio_flujo_csv (r0 : List String) (rest : List (List String))
    (k : Nat) (msg : String) :
    (analizarCSVGen (r0 :: rest) (Option.some (k, msg))).error = Option.some msg ∧
    (analizarCSVGen (r0 :: rest) (Option.some (k, msg))).totalFilas = 0 ∧
    (∀ c, (analizarCSVGen (r0 :: rest) (Option.some (k, msg))).muestras c = ∅) ∧
    (analizarCSVGen (r0 :: rest) (Option.some (k, msg))).columnas =
      (analizarCSV (r0 :: rest)).columnas ∧
    (analizarCSVGen (r0 :: rest) (Option.some (k, msg))).filaEncabezado =
      (analizarCSV (r0 :: rest)).filaEncabezado ∧
    (analizarCSVGen (r0 :: rest) (Option.some (k, msg))).tipos =
      (estadoCSVTras (r0 :: rest) k).tipos :=
  ⟨rfl, rfl, fun _ => rfl, rfl, rfl, rfl⟩

/-! ## Sample-set invariants -/

/-- A truncated sample string has at most 50 characters. -/
theorem truncar50_len (s : String) : (truncar50 s).length ≤ 50 := by
  show (s.data.take 50).length ≤ 50
  rw [List.length_take]
  exact min_le_left _ _

/-- The sampling step either leaves a column unchanged or, below the cap,
inserts the truncated value. -/
theorem muestrearCelda_spec (E : EsquemaCeldas α) (col : String) (v : α)
    (m : String → Finset String) (c : String) :
    muestrearCelda E col v m c = m c ∨
    ((m c).card < MUESTRA_VALORES ∧
      muestrearCelda E col v m c = insert (truncar50 (E.aCadena v)) (m c)) := by
  unfold muestrearCelda
  split_ifs with h
  · by_cases hc : c = col
    · subst hc
      exact Or.inr ⟨h, by rw [Function.update_same]⟩
    · exact Or.inl (by rw [Function.update_noteq hc])
  · exact Or.inl rfl

/-- Same characterization through `procesarCelda`, recording that an insert
only happens for a visible value. -/
theorem procesarCelda_muestras_spec (E : EsquemaCeldas α) (n : Nat)
    (st : EstadoCols) (col : String) (v : α) (c : String) :
    (procesarCelda E n st col v).muestras c = st.muestras c ∨
    (E.visible v = true ∧ (st.muestras c).card < MUESTRA_VALORES ∧
      (procesarCelda E n st col v).muestras c =
        insert (truncar50 (E.aCadena v)) (st.muestras c)) := by
  unfold procesarCelda
  split_ifs with hv hn
  · rcases muestrearCelda_spec E col v st.muestras c with h | ⟨h1, h2⟩
    · exact Or.inl h
    · exact Or.inr ⟨hv, h1, h2⟩
  · rcases muestrearCelda_spec E col v st.muestras c with h | ⟨h1, h2⟩
    · exact Or.inl h
    · exact Or.inr ⟨hv, h1, h2⟩
  · exact Or.inl rfl

/-- One data row preserves well-formedness of the sample sets. -/
theorem muestras_inv_fila (E : EsquemaCeldas α) (D : List (List α))
    (headers : List String) (fila : List α) (n : Nat) (st : EstadoCols)
    (hf : fila ∈ D) (h : MuestrasBuenas E D st.muestras) :
    MuestrasBuenas E D (procesarFilaDatos E headers fila n st).muestras := by
  have := foldl_inv (fun s p => procesarCelda E n s p.2 p.1)
    (fun s => MuestrasBuenas E D s.muestras) (fila.zip headers) st ?_ h
  · exact this
  · intro s p hp hInv c
    rcases procesarCelda_muestras_spec E n s p.2 p.1 c with heq | ⟨hv, hcard, hins⟩
    · rw [heq]; exact hInv c
    · refine ⟨?_, ?_⟩
      · rw [hins]
        have := Finset.card_insert_le (truncar50 (E.aCadena p.1)) (s.muestras c)
        omega
      · intro x hx
        rw [hins] at hx
        rcases Finset.mem_insert.mp hx with hx1 | hx2
        · subst hx1
          exact ⟨truncar50_len _, fila, hf, p.1, (List.of_mem_zip hp).1, hv, rfl⟩
        · exact (hInv c).2 x hx2

/-- The whole data loop preserves well-formedness of the sample sets. -/
theorem muestras_inv_datos (E : EsquemaCeldas α) (headers : List String)
    (D datos : List (List α)) (acc : Nat × EstadoCols)
    (hD : ∀ f ∈ datos, f ∈ D) (h : MuestrasBuenas E D acc.2.muestras) :
    MuestrasBuenas E D (procesarDatos E headers datos acc).2.muestras := by
  have := foldl_inv
    (fun (a : Nat × EstadoCols) f => (a.1 + 1, procesarFilaDatos E headers f (a.1 + 1) a.2))
    (fun a => MuestrasBuenas E D a.2.muestras) datos acc ?_ h
  · exact this
  · intro a f hfd ha
    exact muestras_inv_fila E D headers f (a.1 + 1) a.2 (hD f hfd) ha

/-- The empty sample sets are well formed. -/
theorem muestras_inv_inicial (E : EsquemaCeldas α) (D : List (List α)) :
    MuestrasBuenas E D estadoInicial.muestras := by
  intro c
  refine ⟨?_, ?_⟩
  · show (∅ : Finset String).card ≤ MUESTRA_VALORES
    simp [MUESTRA_VALORES]
  · intro x hx
    exact absurd hx (by simp [estadoInicial])

/-- The per-column Parquet sampling loop never exceeds the cap. -/
theorem muestrearColParquet_card (fuel : Nat) (vals : List Valor) :
    ∀ acc : Finset String, acc.card ≤ MUESTRA_VALORES →
      (muestrearColParquet fuel vals acc).card ≤ MUESTRA_VALORES := by
  induction vals generalizing fuel with
  | nil =>
    intro acc h
    cases fuel <;> simpa [muestrearColParquet] using h
  | cons v vs ih =>
    intro acc h
    cases fuel with
    | zero => simpa [muestrearColParquet] using h
    | succ fuel =>
      simp only [muestrearColParquet]
      split_ifs with h5
      · exact h
      · cases v with
        | nulo => exact ih fuel _ h
        | obj ty s b =>
          apply ih fuel
          have := Finset.card_insert_le (truncar50 s) acc
          simp only [MUESTRA_VALORES] at h5 ⊢
          omega

/-- Every sample produced by the per-column Parquet loop is either an
incoming one or the truncation of a non-null value of the column. -/
theorem muestrearColParquet_mem (fuel : Nat) (vals : List Valor) :
    ∀ (acc : Finset String) (x : String), x ∈ muestrearColParquet fuel vals acc →
      x ∈ acc ∨ ∃ v ∈ vals, v.esNulo = false ∧ x = truncar50 v.cadenaDe := by
  induction vals generalizing fuel with
  | nil =>
    intro acc x hx
    cases fuel <;> exact Or.inl (by simpa [muestrearColParquet] using hx)
  | cons v vs ih =>
    intro acc x hx
    cases fuel with
    | zero => exact Or.inl (by simpa [muestrearColParquet] using hx)
    | succ fuel =>
      simp only [muestrearColParquet] at hx
      split_ifs at hx with h5
      · exact Or.inl hx
      · cases v with
        | nulo =>
          rcases ih fuel acc x hx with h | ⟨w, hw, hnul, heq⟩
          · exact Or.inl h
          · exact Or.inr ⟨w, List.mem_cons_of_mem _ hw, hnul, heq⟩
        | obj ty s b =>
          rcases ih fuel _ x hx with h | ⟨w, hw, hnul, heq⟩
          · rcases Finset.mem_insert.mp h with h1 | h2
            · exact Or.inr ⟨Valor.obj ty s b, List.mem_cons_self _ _, rfl, h1⟩
            · exact Or.inl h2
          · exact Or.inr ⟨w, List.mem_cons_of_mem _ hw, hnul, heq⟩

/-- Batch-level sampling invariant for the Parquet analyzer. -/
theorem muestrasDeLote_inv (columnas : List String)
    (lote : List (String × List Valor)) (m : String → Finset String)
    (hm : ∀ c, (m c).card ≤ MUESTRA_VALORES ∧
      ∀ x ∈ m c, x.length ≤ 50 ∧
        ∃ p ∈ lote, ∃ v ∈ p.2, v.esNulo = false ∧ x = truncar50 v.cadenaDe) :
    ∀ c, ((muestrasDeLote columnas lote m) c).card ≤ MUESTRA_VALORES ∧
      ∀ x ∈ (muestrasDeLote columnas lote m) c, x.length ≤ 50 ∧
        ∃ p ∈ lote, ∃ v ∈ p.2, v.esNulo = false ∧ x = truncar50 v.cadenaDe := by
  unfold muestrasDeLote
  refine foldl_inv _
    (fun m => ∀ c, (m c).card ≤ MUESTRA_VALORES ∧
      ∀ x ∈ m c, x.length ≤ 50 ∧
        ∃ p ∈ lote, ∃ v ∈ p.2, v.esNulo = false ∧ x = truncar50 v.cadenaDe)
    columnas m ?_ hm
  intro m2 col _ hInv c
  split_ifs with h5
  · exact hInv c
  · cases hfind : lote.find? (fun p => p.1 == col) with
    | none => simp only [hfind]; exact hInv c
    | some p =>
      simp only [hfind]
      have hpl : p ∈ lote := List.mem_of_find?_eq_some hfind
      by_cases hc : c = col
      · subst hc
        rw [Function.update_same]
        refine ⟨muestrearColParquet_card _ _ _ (hInv c).1, ?_⟩
        intro x hx
        rcases muestrearColParquet_mem _ _ _ x hx with h | ⟨w, hw, hnul, heq⟩
        · exact (hInv c).2 x h
        · subst heq
          exact ⟨truncar50_len _, p, hpl, w, hw, hnul, rfl⟩
      · rw [Function.update_noteq hc]
        exact hInv c

/-- The Parquet per-column loop inspects at most `MUESTRA_VALORES * 2`
values. -/
theorem muestrearColParquet_take (fuel : Nat) (vals : List Valor) :
    ∀ acc, muestrearColParquet fuel vals acc =
      muestrearColParquet fuel (vals.take fuel) acc := by
  induction vals generalizing fuel with
  | nil => intro acc; simp
  | cons v vs ih =>
    intro acc
    cases fuel with
    | zero => rfl
    | succ fuel =>
      rw [List.take_succ_cons]
      simp only [muestrearColParquet]
      split_ifs with h5
      · rfl
      · cases v with
        | nulo => exact ih fuel _
        | obj ty s b => exact ih fuel _

theorem procesarLote_length :
    ∀ xs : List (Except String Resultado), (procesarLoteArchivos xs).length = xs.length := by
  intro xs
  induction xs with
  | nil => rfl
  | cons x xs ih => simp [procesarLoteArchivos, ih]

theorem procesarLote_append :
    ∀ xs ys : List (Except String Resultado),
      procesarLoteArchivos (xs ++ ys) = procesarLoteArchivos xs ++ procesarLoteArchivos ys := by
  intro xs ys
  induction xs with
  | nil => rfl
  | cons x xs ih => simp [procesarLoteArchivos, ih]

/-- **C4 (counterexample)** The claim that null/empty values are never
sampled fails: the Parquet analyzer samples any non-null value, including
the empty string — a one-column file whose first value is `""` yields `""`
in that column's samples.  (The Excel analyzer behaves the same; only the
CSV analyzer skips blank values.) -/
theorem muestras_valor_vacio_contraejemplo :
    "" ∈ (analizarParquet ⟨1, [("c", "string")]⟩
      [[("c", [Valor.obj "str" "" false])]]).muestras "c" := by decide

/-- **C4 (amended)** In every analyzer each column's sample set always holds
at most 5 distinct strings of length at most 50, and every sample comes from
a visible value of the traversed data: nonblank for the CSV analyzer
(null/empty values never sampled there), non-null for the Excel and Parquet
analyzers (which do sample empty strings). -/
theorem muestras_acotadas_y_procedencia :
    (∀ (rows : List (List String)) (n : Nat),
      MuestrasBuenas esquemaCSV (datosCSV rows) (estadoCSVTras rows n).muestras) ∧
    (∀ (hoja : List (List Valor)) (n : Nat),
      MuestrasBuenas esquemaExcel (datosHoja hoja) (estadoHojaTras hoja n).muestras) ∧
    (∀ (meta : MetaParquet) (lotes : List (List (String × List Valor))) (c : String),
      ((analizarParquet meta lotes).muestras c).card ≤ MUESTRA_VALORES ∧
      ∀ x ∈ (analizarParquet meta lotes).muestras c, x.length ≤ 50 ∧
        ∃ lote, lotes.head? = Option.some lote ∧
          ∃ p ∈ lote, ∃ v ∈ p.2, v.esNulo = false ∧ x = truncar50 v.cadenaDe) ∧
    (∀ (fuel : Nat) (vals : List Valor) (acc : Finset String),
      acc.card ≤ MUESTRA_VALORES →
      (muestrearColParquet fuel vals acc).card ≤ MUESTRA_VALORES) := by
  refine ⟨?_, ?_, ?_, fun fuel vals acc h => muestrearColParquet_card fuel vals acc h⟩
  · intro rows n
    exact muestras_inv_datos esquemaCSV (encabezadoCSV rows).2 (datosCSV rows)
      ((datosCSV rows).take n) (0, estadoInicial)
      (fun f hf => List.take_subset n _ hf)
      (muestras_inv_inicial esquemaCSV (datosCSV rows))
  · intro hoja n
    exact muestras_inv_datos esquemaExcel (encabezadoHoja hoja).2 (datosHoja hoja)
      ((datosHoja hoja).take n) (0, estadoInicial)
      (fun f hf => List.take_subset n _ hf)
      (muestras_inv_inicial esquemaExcel (datosHoja hoja))
  · intro meta lotes c
    cases lotes with
    | nil =>
      refine ⟨by simp [analizarParquet, MUESTRA_VALORES], ?_⟩
      intro x hx
      exact absurd hx (by simp [analizarParquet])
    | cons lote resto =>
      have h0 : ∀ c2 : String, ((fun _ : String => (∅ : Finset String)) c2).card ≤
            MUESTRA_VALORES ∧
          ∀ x ∈ (fun _ : String => (∅ : Finset String)) c2, x.length ≤ 50 ∧
            ∃ p ∈ lote, ∃ v ∈ p.2, v.esNulo = false ∧ x = truncar50 v.cadenaDe := by
        intro c2
        refine ⟨by simp [MUESTRA_VALORES], ?_⟩
        intro x hx
        exact absurd hx (by simp)
      have := muestrasDeLote_inv (meta.esquema.map Prod.fst) lote (fun _ => ∅) h0 c
      refine ⟨this.1, ?_⟩
      intro x hx
      obtain ⟨hlen, p, hp, v, hv, hnul, heq⟩ := this.2 x hx
      exact ⟨hlen, lote, rfl, p, hp, v, hv, hnul, heq⟩

/-- Witness of the C4 amended theorem: the sample `"1"` of column `id`
after scenario A's first data row respects the cap and originates from a
visible (nonblank) CSV value. -/
theorem muestras_acotadas_y_procedencia_testigo :
    ((estadoCSVTras escenarioA 1).muestras "id").card ≤ MUESTRA_VALORES ∧
    ("1" : String).length ≤ 50 ∧
    ∃ fila ∈ datosCSV escenarioA, ∃ v ∈ fila, esquemaCSV.visible v = true ∧
      ("1" : String) = truncar50 (esquemaCSV.aCadena v) :=
  ⟨(muestras_acotadas_y_procedencia.1 escenarioA 1 "id").1,
   (muestras_acotadas_y_procedencia.1 escenarioA 1 "id").2 "1" (by decide)⟩

set_option linter.unusedTactic false in
/-- **C5** The header scorer rejects rows with fewer than two truthy cells
with score exactly 0 and the not-header flag; and a row each of whose cells
is blank or numeric gets a score ≤ 0 and is never header-eligible. -/
theorem puntuacion_encabezado_cotas (fila : List Valor) :
    ((fila.filter Valor.esViva).length < 2 →
      (esEncabezadoValido fila).1 = false ∧ (esEncabezadoValido fila).2.val = 0) ∧
    ((∀ v ∈ fila, celdaNumerica v = true) →
      (esEncabezadoValido fila).2.val ≤ 0 ∧ (esEncabezadoValido fila).1 = false) := by
  constructor
  · intro h
    have he : esEncabezadoValido fila = (false, ⟨0, 1⟩) := by
      simp only [esEncabezadoValido, if_pos h]
    rw [he]
    exact ⟨rfl, Puntaje.val_rechazo⟩
  · intro hnum
    by_cases hgate : (fila.filter Valor.esViva).length < 2
    · have he : esEncabezadoValido fila = (false, ⟨0, 1⟩) := by
        simp only [esEncabezadoValido, if_pos hgate]
      rw [he]
      exact ⟨le_of_eq Puntaje.val_rechazo, rfl⟩
    · have hall : ∀ x ∈ fila.filterMap celdaContenido, puntuarCelda x = -3 := by
        intro x hx
        obtain ⟨v, hv, hcv⟩ := List.mem_filterMap.mp hx
        have hn := hnum v hv
        unfold celdaNumerica at hn
        rw [hcv] at hn
        unfold puntuarCelda
        rw [if_pos hn]
      have hsum : ((fila.filterMap celdaContenido).map puntuarCelda).sum =
          ((fila.filterMap celdaContenido).length : Int) * (-3) := by
        have hrep : (fila.filterMap celdaContenido).map puntuarCelda =
            List.replicate (fila.filterMap celdaContenido).length (-3 : Int) := by
          rw [List.eq_replicate_iff]
          refine ⟨by simp, ?_⟩
          intro b hb
          obtain ⟨x, hx, hbx⟩ := List.mem_map.mp hb
          rw [← hbx]
          exact hall x hx
        rw [hrep, List.sum_replicate, nsmul_eq_mul]
      have hlen0 : (0 : Int) ≤ ((fila.filterMap celdaContenido).length : Int) :=
        Int.ofNat_nonneg _
      have hs : ((fila.filterMap celdaContenido).map puntuarCelda).sum ≤ 0 := by
        rw [hsum]; nlinarith
      simp only [esEncabezadoValido, if_neg hgate]
      split_ifs with hcv hpen hpen <;>
        refine ⟨Puntaje.val_nonpos _
          (by (try simp only [Puntaje.t_mk, Puntaje.d_mk]); omega), ?_⟩ <;>
        (show decide _ = false) <;>
        exact decide_eq_false (by (try simp only [Puntaje.t_mk, Puntaje.d_mk]); omega)

/-- Witness of the C5 theorem: the single-cell row `["x"]` is rejected with
score 0, and the all-numeric row `["1","2"]` has score ≤ 0 and is not
eligible. -/
theorem puntuacion_encabezado_cotas_testigo :
    ((esEncabezadoValido (filaDeCadenas ["x"])).1 = false ∧
      (esEncabezadoValido (filaDeCadenas ["x"])).2.val = 0) ∧
    ((esEncabezadoValido (filaDeCadenas ["1", "2"])).2.val ≤ 0 ∧
      (esEncabezadoValido (filaDeCadenas ["1", "2"])).1 = false) :=
  ⟨(puntuacion_encabezado_cotas (filaDeCadenas ["x"])).1 (by decide),
   (puntuacion_encabezado_cotas (filaDeCadenas ["1", "2"])).2 (by decide)⟩

/-- **C7** The Parquet analyzer takes `totalRows` from the metadata alone —
for any batch contents, and in particular `1000000` when the metadata says
so — its sampling depends only on the first batch, the per-column loop
scans at most `MUESTRA_VALORES * 2` values, and the batch size is
`min 1000 CHUNK_SIZE = 1000` rows. -/
theorem parquet_metadatos_y_primer_lote (meta : MetaParquet)
    (lotes : List (List (String × List Valor)))
    (lote : List (String × List Valor))
    (r1 r2 : List (List (String × List Valor)))
    (vals : List Valor) (acc : Finset String) :
    (analizarParquet meta lotes).totalFilas = meta.numRows ∧
    (analizarParquet ⟨1000000, [("c", "string")]⟩ lotes).totalFilas = 1000000 ∧
    (analizarParquet meta (lote :: r1)).muestras =
      (analizarParquet meta (lote :: r2)).muestras ∧
    muestrearColParquet (MUESTRA_VALORES * 2) vals acc =
      muestrearColParquet (MUESTRA_VALORES * 2) (vals.take (MUESTRA_VALORES * 2)) acc ∧
    min 1000 CHUNK_SIZE = 1000 :=
  ⟨rfl, rfl, rfl, muestrearColParquet_take (MUESTRA_VALORES * 2) vals acc, rfl⟩

/-- **C8** The Arrow type mapping works by substring match on the
lower-cased type name — int→integer, float/double→decimal,
timestamp/date→date, bool→boolean, string/utf8→text — and an unrecognized
type name is returned verbatim. -/
theorem traduccion_arrow_subcadenas (t : String) :
    (contieneSub "int".data (t.data.map Char.toLower) = true →
      traducirTipoArrow t = "entero") ∧
    (contieneSub "int".data (t.data.map Char.toLower) = false →
      (contieneSub "float".data (t.data.map Char.toLower) = true ∨
       contieneSub "double".data (t.data.map Char.toLower) = true) →
      traducirTipoArrow t = "decimal") ∧
    (contieneSub "int".data (t.data.map Char.toLower) = false →
      contieneSub "float".data (t.data.map Char.toLower) = false →
      contieneSub "double".data (t.data.map Char.toLower) = false →
      (contieneSub "timestamp".data (t.data.map Char.toLower) = true ∨
       contieneSub "date".data (t.data.map Char.toLower) = true) →
      traducirTipoArrow t = "fecha") ∧
    (contieneSub "int".data (t.data.map Char.toLower) = false →
      contieneSub "float".data (t.data.map Char.toLower) = false →
      contieneSub "double".data (t.data.map Char.toLower) = false →
      contieneSub "timestamp".data (t.data.map Char.toLower) = false →
      contieneSub "date".data (t.data.map Char.toLower) = false →
      contieneSub "bool".data (t.data.map Char.toLower) = true →
      traducirTipoArrow t = "booleano") ∧
    (contieneSub "int".data (t.data.map Char.toLower) = false →
      contieneSub "float".data (t.data.map Char.toLower) = false →
      contieneSub "double".data (t.data.map Char.toLower) = false →
      contieneSub "timestamp".data (t.data.map Char.toLower) = false →
      contieneSub "date".data (t.data.map Char.toLower) = false →
      contieneSub "bool".data (t.data.map Char.toLower) = false →
      (contieneSub "string".data (t.data.map Char.toLower) = true ∨
       contieneSub "utf8".data (t.data.map Char.toLower) = true) →
      traducirTipoArrow t = "texto") ∧
    (contieneSub "int".data (t.data.map Char.toLower) = false →
      contieneSub "float".data (t.data.map Char.toLower) = false →
      contieneSub "double".data (t.data.map Char.toLower) = false →
      contieneSub "timestamp".data (t.data.map Char.toLower) = false →
      contieneSub "date".data (t.data.map Char.toLower) = false →
      contieneSub "bool".data (t.data.map Char.toLower) = false →
      contieneSub "string".data (t.data.map Char.toLower) = false →
      contieneSub "utf8".data (t.data.map Char.toLower) = false →
      traducirTipoArrow t = t) := by
  refine ⟨?_, ?_, ?_, ?_, ?_, ?_⟩
  · intro h1
    simp [traducirTipoArrow, h1]
  · intro h1 h2
    rcases h2 with h2 | h2 <;> simp [traducirTipoArrow, h1, h2]
  · intro h1 h2 h3 h4
    rcases h4 with h4 | h4 <;> simp [traducirTipoArrow, h1, h2, h3, h4]
  · intro h1 h2 h3 h4 h5 h6
    simp [traducirTipoArrow, h1, h2, h3, h4, h5, h6]
  · intro h1 h2 h3 h4 h5 h6 h7
    rcases h7 with h7 | h7 <;> simp [traducirTipoArrow, h1, h2, h3, h4, h5, h6, h7]
  · intro h1 h2 h3 h4 h5 h6 h7 h8
    simp [traducirTipoArrow, h1, h2, h3, h4, h5, h6, h7, h8]

/-- Witness of the C8 theorem: `int64` maps to integer, and the
unrecognized `decimal128(10, 2)` is returned verbatim. -/
theorem traduccion_arrow_subcadenas_testigo :
    traducirTipoArrow "int64" = "entero" ∧
    traducirTipoArrow "decimal128(10, 2)" = "decimal128(10, 2)" :=
  ⟨(traduccion_arrow_subcadenas "int64").1 (by decide),
   (traduccion_arrow_subcadenas "decimal128(10, 2)").2.2.2.2.2 (by decide) (by decide)
     (by decide) (by decide) (by decide) (by decide) (by decide) (by decide)⟩

/-- **C9** Per-file failures are converted into the failing file's `error`
field at the file boundary and the batch continues with the other files,
whose results are unchanged; one result is produced per file, and a missing
optional library (openpyxl, pyarrow) becomes a result-level error naming
it. -/
theorem errores_por_archivo_contenidos (xs ys : List (Except String Resultado))
    (m : String) (r : Resultado) (hojas : List (List (List Valor)))
    (meta : MetaParquet) (lotes : List (List (String × List Valor))) :
    (procesarLoteArchivos xs).length = xs.length ∧
    procesarLoteArchivos (xs ++ Except.error m :: ys) =
      procesarLoteArchivos xs ++
        fronteraArchivo (Except.error m) :: procesarLoteArchivos ys ∧
    (fronteraArchivo (Except.error m)).error = Option.some m ∧
    fronteraArchivo (Except.ok r) = r ∧
    (analizarExcelLibro false hojas).1 = Option.some mensajeImportExcel ∧
    (analizarExcelLibro false hojas).2 = [] ∧
    (analizarParquetSeguro false meta lotes).error = Option.some mensajeImportParquet ∧
    analizarParquetSeguro true meta lotes = analizarParquet meta lotes :=
  ⟨procesarLote_length xs, procesarLote_append xs (Except.error m :: ys),
   rfl, rfl, rfl, rfl, rfl, rfl⟩

end Datamapping
